import Mathlib

/-!
Verification of the bukzor.color core (python/bukzor_color).

Modelling conventions:
* Python `Decimal` arithmetic is modelled exactly over `ℚ` (every finite
  decimal is rational; the claims verified here are robust to the 28-digit
  context rounding of the `decimal` module).
* The float-valued helpers the source calls (`math.cos`, `math.sin`,
  `math.atan2`, and `Decimal.sqrt`) are modelled as an oracle of
  rational-valued functions, since none of the verified properties depend
  on their numeric values.
* Python exceptions are modelled with `Except Err`.
* The sRGB transfer functions use a real exponent 2.4, so that layer is
  modelled over `ℝ` with `Real.rpow`.
-/

namespace BukzorColor

/-- Error kinds raised by the library (the ValueError messages, abstracted). -/
inductive Err where
  | rangeViolation
  | invalidHexFormat
  | invalidRgbFormat
  | invalidHslFormat
  | invalidHsvFormat
  | invalidWcagHclFormat
  | unrecognizedFormat
  | unknownLevel
  | invalidAdjustTarget
  | divisionByZero
  | invalidOperation
  deriving DecidableEq, Repr

instance exceptDecEq {ε α : Type} [DecidableEq ε] [DecidableEq α] :
    DecidableEq (Except ε α) := fun x y =>
  match x, y with
  | .ok a, .ok b =>
    if h : a = b then isTrue (by rw [h])
    else isFalse (fun hh => by cases hh; exact h rfl)
  | .error e, .error f =>
    if h : e = f then isTrue (by rw [h])
    else isFalse (fun hh => by cases hh; exact h rfl)
  | .ok _, .error _ => isFalse (fun hh => by cases hh)
  | .error _, .ok _ => isFalse (fun hh => by cases hh)

/-- Embedding of `Color` (core.py): linear RGB components, Decimal as `ℚ`. -/
structure ColorQ where
  red : ℚ
  green : ℚ
  blue : ℚ
  deriving DecidableEq, Repr

/-- The validity condition enforced by `Color.__post_init__`: all components
in the closed interval [0,1]. -/
def ColorQ.valid (c : ColorQ) : Prop :=
  0 ≤ c.red ∧ c.red ≤ 1 ∧ 0 ≤ c.green ∧ c.green ≤ 1 ∧ 0 ≤ c.blue ∧ c.blue ≤ 1

instance (c : ColorQ) : Decidable c.valid := by
  unfold ColorQ.valid; infer_instance

/-- WCAG luminance coefficient for red (wcag_hcl.py `_WCAG_R`). -/
def wcagR : ℚ := 2126 / 10000

/-- WCAG luminance coefficient for green (wcag_hcl.py `_WCAG_G`). -/
def wcagG : ℚ := 7152 / 10000

/-- WCAG luminance coefficient for blue (wcag_hcl.py `_WCAG_B`). -/
def wcagB : ℚ := 722 / 10000

/-- Chromaticity basis vector u1, red component (wcag_hcl.py `_U1_R`). -/
def u1R : ℚ := 958546 / 1000000

/-- Chromaticity basis vector u1, green component (wcag_hcl.py `_U1_G`). -/
def u1G : ℚ := -284937 / 1000000

/-- Chromaticity basis vector u1, blue component (wcag_hcl.py `_U1_B`). -/
def u1B : ℚ := 0

/-- Chromaticity basis vector u2, red component (wcag_hcl.py `_U2_R`). -/
def u2R : ℚ := 27444 / 1000000

/-- Chromaticity basis vector u2, green component (wcag_hcl.py `_U2_G`). -/
def u2G : ℚ := 92323 / 1000000

/-- Chromaticity basis vector u2, blue component (wcag_hcl.py `_U2_B`). -/
def u2B : ℚ := -995351 / 1000000

/-- Oracle for the float-valued helpers used by wcag_hcl.py: the cosine and
sine of a hue given in degrees (source: `math.cos(float(h*pi/180))` turned
back into a Decimal), the atan2 of a chroma vector already scaled to degrees
(source: `Decimal(str(math.atan2(y,x))) * 180 / pi`), and `Decimal.sqrt`. -/
structure FloatOracle where
  cosDeg : ℚ → ℚ
  sinDeg : ℚ → ℚ
  atanDeg : ℚ → ℚ → ℚ
  sqrtD : ℚ → ℚ

/-- Embedding of `WcagHCLEncoding` fields (h, c, l). -/
structure WcagHCLq where
  h : ℚ
  c : ℚ
  l : ℚ
  deriving DecidableEq, Repr

/-- Clamp to the unit interval, as `max(Decimal('0'), min(Decimal('1'), x))`. -/
def clamp01 (x : ℚ) : ℚ := max 0 (min 1 x)

/-- One step of the maximum-scale fold shared by `decode` and `encode` in
wcag_hcl.py; `none` models the starting value `Decimal('inf')`. -/
def scaleStep (gray : ℚ) (acc : Option ℚ) (d : ℚ) : Option ℚ :=
  if 0 < d then
    some (match acc with
      | none => (1 - gray) / d
      | some m => min m ((1 - gray) / d))
  else if d < 0 then
    some (match acc with
      | none => -gray / d
      | some m => min m (-gray / d))
  else acc

/-- The `max_scale` loop of wcag_hcl.py over the three direction components. -/
def maxScaleQ (gray dr dg db : ℚ) : Option ℚ :=
  [dr, dg, db].foldl (scaleStep gray) none

/-- Embedding of `WcagHCLEncoding.decode`. The `none` max-scale case models
the `Decimal('inf') * 0` invalid operation Python would raise on. -/
def WcagHCLq.decode (o : FloatOracle) (e : WcagHCLq) : Except Err ColorQ :=
  if e.c = 0 then
    let clampedL := clamp01 e.l
    .ok ⟨clampedL, clampedL, clampedL⟩
  else
    let ux := o.cosDeg e.h
    let uy := o.sinDeg e.h
    let dr := ux * u1R + uy * u2R
    let dg := ux * u1G + uy * u2G
    let db := ux * u1B + uy * u2B
    match maxScaleQ e.l dr dg db with
    | none => .error .invalidOperation
    | some ms =>
      let s := ms * (e.c / 100)
      .ok ⟨clamp01 (e.l + s * dr), clamp01 (e.l + s * dg), clamp01 (e.l + s * db)⟩

/-- Truncation toward zero, as Python `int(...)` on a Decimal. -/
def qTrunc (q : ℚ) : ℤ := if 0 ≤ q then ⌊q⌋ else ⌈q⌉

/-- Decimal remainder: truncated division, result keeps the dividend's sign. -/
def decMod (a n : ℚ) : ℚ := a - n * qTrunc (a / n)

/-- Embedding of `WcagHCLEncoding.encode`. -/
def WcagHCLq.encode (o : FloatOracle) (col : ColorQ) : WcagHCLq :=
  let L := wcagR * col.red + wcagG * col.green + wcagB * col.blue
  let chromaR := col.red - L
  let chromaG := col.green - L
  let chromaB := col.blue - L
  let x := chromaR * u1R + chromaG * u1G + chromaB * u1B
  let y := chromaR * u2R + chromaG * u2G + chromaB * u2B
  if x = 0 ∧ y = 0 then ⟨0, 0, L⟩
  else
    let H := decMod (o.atanDeg y x) 360
    let mag := o.sqrtD (x ^ 2 + y ^ 2)
    let cosH := x / mag
    let sinH := y / mag
    let dr := cosH * u1R + sinH * u2R
    let dg := cosH * u1G + sinH * u2G
    let db := cosH * u1B + sinH * u2B
    let C := match maxScaleQ L dr dg db with
      | some ms => if 0 < ms then mag / ms * 100 else 0
      | none => 0
    ⟨H, C, L⟩

/-- Embedding of `Color.luminance`: the l channel of the WCAG-HCL encoding. -/
def ColorQ.luminance (o : FloatOracle) (c : ColorQ) : ℚ :=
  (WcagHCLq.encode o c).l

/-- Embedding of `ContrastResult` (contrast.py). -/
structure ContrastResultQ where
  foreground : ColorQ
  background : ColorQ
  ratio : ℚ
  deriving DecidableEq, Repr

/-- Embedding of `calculate_contrast` (contrast.py). -/
def calculateContrast (o : FloatOracle) (fg bg : ColorQ) : ContrastResultQ :=
  let l1 := (WcagHCLq.encode o fg).l
  let l2 := (WcagHCLq.encode o bg).l
  let r := if l1 > l2 then (l1 + 1/20) / (l2 + 1/20) else (l2 + 1/20) / (l1 + 1/20)
  ⟨fg, bg, r⟩

/-- The target argument of `adjust_contrast`: a numeric ratio or a level name. -/
inductive Target where
  | num (q : ℚ)
  | level (s : String)
  deriving DecidableEq

/-- Embedding of `get_target_ratio` (contrast.py). -/
def getTargetRatio : Target → Except Err ℚ
  | .num q => .ok q
  | .level s =>
    if s = "A" then .ok 1
    else if s = "AA" then .ok (9/2)
    else if s = "AAA" then .ok 7
    else if s = "AA-large" then .ok 3
    else if s = "AAA-large" then .ok (9/2)
    else .error .unknownLevel

/-- Stable insertion into a list ascending by key. -/
def insertByKey {α : Type} (key : α → ℚ) (a : α) : List α → List α
  | [] => [a]
  | b :: rest =>
    if key a ≤ key b then a :: b :: rest else b :: insertByKey key a rest

/-- Stable ascending sort by key, as Python `list.sort(key=...)`. -/
def sortByKey {α : Type} (key : α → ℚ) : List α → List α
  | [] => []
  | a :: rest => insertByKey key a (sortByKey key rest)

/-- The best-candidate loop of `_adjust_lightness_for_contrast`: first
candidate meeting the target, replaced whenever a later one has a strictly
smaller achieved ratio. Candidates are (color, achieved ratio, required
luminance) triples, as in the source. -/
def bestCandidate (targetRatio : ℚ) (candidates : List (ColorQ × ℚ × ℚ)) :
    Option (ColorQ × ℚ × ℚ) :=
  candidates.foldl (fun acc cand =>
    if targetRatio ≤ cand.2.1 then
      match acc with
      | none => some cand
      | some b => if cand.2.1 < b.2.1 then some cand else some b
    else acc) none

/-- The fallback of `_adjust_lightness_for_contrast`: stable-sort the
candidates by distance of the achieved ratio from the target, take the head
(the source's `candidates.sort(...)` and `candidates[0][0]`). -/
def closestCandidate (targetRatio : ℚ) (candidates : List (ColorQ × ℚ × ℚ))
    (dflt : ColorQ) : ColorQ :=
  match sortByKey (fun cand => |cand.2.1 - targetRatio|) candidates with
  | [] => dflt
  | cand :: _ => cand.1

/-- Embedding of `_adjust_lightness_for_contrast` (contrast.py). -/
def adjustLightnessForContrast (o : FloatOracle) (colorToAdjust fixedColor : ColorQ)
    (targetRatio : ℚ) : Except Err ColorQ := do
  let adjustW := WcagHCLq.encode o colorToAdjust
  let fixedW := WcagHCLq.encode o fixedColor
  let reqLum1 := targetRatio * (fixedW.l + 1/20) - 1/20
  if targetRatio = 0 then throw .divisionByZero
  let reqLum2 := (fixedW.l + 1/20) / targetRatio - 1/20
  let cand1 ← WcagHCLq.decode o ⟨adjustW.h, adjustW.c, reqLum1⟩
  let ratio1 := (calculateContrast o cand1 fixedColor).ratio
  let cand2 ← WcagHCLq.decode o ⟨adjustW.h, adjustW.c, reqLum2⟩
  let ratio2 := (calculateContrast o cand2 fixedColor).ratio
  let candidates : List (ColorQ × ℚ × ℚ) :=
    [(cand1, ratio1, reqLum1), (cand2, ratio2, reqLum2)]
  match bestCandidate targetRatio candidates with
  | some b => return b.1
  | none => return closestCandidate targetRatio candidates colorToAdjust

/-- Comparison of optional luminance displacements, `none` standing for the
Decimal infinity used by the `auto` branch of `adjust_contrast`. -/
def changeLE : Option ℚ → Option ℚ → Bool
  | some a, some b => a ≤ b
  | some _, none => true
  | none, none => true
  | none, some _ => false

/-- Embedding of `adjust_contrast` (contrast.py). The mode is a `String` so
that invalid modes can be passed, as in Python. -/
def adjustContrast (o : FloatOracle) (fg bg : ColorQ) (target : Target)
    (adjust : String) : Except Err (ColorQ × ColorQ × ContrastResultQ) := do
  let targetRatio ← getTargetRatio target
  let currentResult := calculateContrast o fg bg
  if targetRatio ≤ currentResult.ratio then
    return (fg, bg, currentResult)
  if adjust = "fg" then
    let adjustedFg ← adjustLightnessForContrast o fg bg targetRatio
    return (adjustedFg, bg, calculateContrast o adjustedFg bg)
  else if adjust = "bg" then
    let adjustedBg ← adjustLightnessForContrast o bg fg targetRatio
    return (fg, adjustedBg, calculateContrast o fg adjustedBg)
  else if adjust = "auto" then
    let fgTry :=
      match adjustLightnessForContrast o fg bg targetRatio with
      | .ok afg =>
        (afg, calculateContrast o afg bg,
          some |ColorQ.luminance o fg - ColorQ.luminance o afg|)
      | .error _ => (fg, currentResult, (none : Option ℚ))
    let bgTry :=
      match adjustLightnessForContrast o bg fg targetRatio with
      | .ok abg =>
        (abg, calculateContrast o fg abg,
          some |ColorQ.luminance o bg - ColorQ.luminance o abg|)
      | .error _ => (bg, currentResult, (none : Option ℚ))
    if targetRatio ≤ fgTry.2.1.ratio ∧ targetRatio ≤ bgTry.2.1.ratio then
      if changeLE fgTry.2.2 bgTry.2.2 then
        return (fgTry.1, bg, fgTry.2.1)
      else
        return (fg, bgTry.1, bgTry.2.1)
    else if targetRatio ≤ fgTry.2.1.ratio then
      return (fgTry.1, bg, fgTry.2.1)
    else if targetRatio ≤ bgTry.2.1.ratio then
      return (fg, bgTry.1, bgTry.2.1)
    else
      if bgTry.2.1.ratio ≤ fgTry.2.1.ratio then
        return (fgTry.1, bg, fgTry.2.1)
      else
        return (fg, bgTry.1, bgTry.2.1)
  else
    throw .invalidAdjustTarget

/-- A concrete oracle used by witnesses. -/
def o0 : FloatOracle := ⟨fun _ => 1, fun _ => 0, fun _ _ => 0, fun _ => 0⟩

/-- A concrete mid gray used by witnesses. -/
def grayHalf : ColorQ := ⟨1/2, 1/2, 1/2⟩

/-! The sRGB layer. The transfer functions of core.py raise a Decimal to the
real powers 2.4 and 1/2.4, so this layer is modelled over the reals. -/

/-- Truncation toward zero on the reals, as Python `int(...)` of a Decimal. -/
noncomputable def realTrunc (x : ℝ) : ℤ := if 0 ≤ x then ⌊x⌋ else ⌈x⌉

/-- Embedding of `Color` for the sRGB layer: linear RGB components over ℝ. -/
structure ColorR where
  red : ℝ
  green : ℝ
  blue : ℝ

/-- The per-channel helper of `Color.from_srgb` (core.py): the sRGB transfer
function taking a byte to a linear component. -/
noncomputable def srgbToLinear (channel : ℕ) : ℝ :=
  let normalized : ℝ := channel / 255
  if normalized ≤ 0.04045 then normalized / 12.92
  else ((normalized + 0.055) / 1.055) ^ (2.4 : ℝ)

/-- Embedding of `Color.from_srgb` (core.py). For byte inputs the resulting
components lie in [0,1], so the Color range validation passes. -/
noncomputable def fromSrgb (r g b : ℕ) : ColorR :=
  ⟨srgbToLinear r, srgbToLinear g, srgbToLinear b⟩

/-- The per-channel helper of `Color.to_srgb` (core.py): inverse transfer
function, scale by 255, add 0.5 and truncate (round-half-up), clamp. -/
noncomputable def linearToSrgb (component : ℝ) : ℤ :=
  let srgb : ℝ :=
    if component ≤ 0.0031308 then component * 12.92
    else 1.055 * component ^ ((1 : ℝ) / 2.4) - 0.055
  max 0 (min 255 (realTrunc (srgb * 255 + 0.5)))

/-- Embedding of `Color.to_srgb` (core.py). -/
noncomputable def toSrgb (c : ColorR) : ℤ × ℤ × ℤ :=
  (linearToSrgb c.red, linearToSrgb c.green, linearToSrgb c.blue)

/-- Embedding of `ColorWithAlpha` (core.py). -/
structure ColorWithAlphaR where
  color : ColorR
  alpha : ℝ

/-- Embedding of `Color.with_alpha` (core.py). -/
def ColorR.withAlpha (c : ColorR) (a : ℝ) : ColorWithAlphaR := ⟨c, a⟩

/-- Embedding of `ColorWithAlpha.over` (core.py): per-channel linear-space
blend alpha*fg + (1-alpha)*bg. -/
noncomputable def ColorWithAlphaR.over (ca : ColorWithAlphaR) (background : ColorR) :
    ColorR :=
  ⟨ca.alpha * ca.color.red + (1 - ca.alpha) * background.red,
   ca.alpha * ca.color.green + (1 - ca.alpha) * background.green,
   ca.alpha * ca.color.blue + (1 - ca.alpha) * background.blue⟩

/-- Embedding of `RGBA` (models.py): sRGB byte channels plus Decimal alpha. -/
structure RGBAq where
  r : ℕ
  g : ℕ
  b : ℕ
  a : ℚ

/-- Embedding of `RGBA.over` (models.py): the same blend formula applied
directly to the sRGB byte values, truncated with int(); the resulting RGB
construction validates the byte range. -/
def RGBAq.over (fg : RGBAq) (bgr bgg bgb : ℕ) : Except Err (ℤ × ℤ × ℤ) :=
  let invAlpha : ℚ := 1 - fg.a
  let r := qTrunc (fg.a * fg.r + invAlpha * bgr)
  let g := qTrunc (fg.a * fg.g + invAlpha * bgg)
  let b := qTrunc (fg.a * fg.b + invAlpha * bgb)
  if 0 ≤ r ∧ r ≤ 255 ∧ 0 ≤ g ∧ g ≤ 255 ∧ 0 ≤ b ∧ b ≤ 255 then .ok (r, g, b)
  else .error .rangeViolation

/-! The text-parsing layer: hex parsing and the auto-detect dispatcher.
Python regexes are modelled as explicit scanners over the character list. -/

/-- Value of one hex digit, case-insensitive, as the char class [0-9a-fA-F]
with int(-, 16) semantics; none for a non-hex character. -/
def hexDigitVal (ch : Char) : Option ℕ :=
  if '0' ≤ ch ∧ ch ≤ '9' then some (ch.toNat - '0'.toNat)
  else if 'a' ≤ ch ∧ ch ≤ 'f' then some (ch.toNat - 'a'.toNat + 10)
  else if 'A' ≤ ch ∧ ch ≤ 'F' then some (ch.toNat - 'A'.toNat + 10)
  else none

/-- Whether a character is a hex digit. -/
def isHexDigitChar (ch : Char) : Bool := (hexDigitVal ch).isSome

/-- Total hex digit value (only used on validated hex characters). -/
def hexVal (ch : Char) : ℕ := (hexDigitVal ch).getD 0

/-- Python str.strip(): drop whitespace from both ends. -/
def stripChars (l : List Char) : List Char :=
  ((l.dropWhile Char.isWhitespace).reverse.dropWhile Char.isWhitespace).reverse

/-- Embedding of `HexEncoding.parse` (encodings/hex.py): strip, drop one
leading #, expand a 3-hex-digit shorthand by digit duplication, require six
hex digits, parse as one integer and split with shifts and masks. -/
def hexParse (s : String) : Except Err (ℕ × ℕ × ℕ) :=
  let t0 := stripChars s.data
  let t1 := if t0.take 1 = ['#'] then t0.drop 1 else t0
  let t2 := if t1.length = 3 ∧ t1.all isHexDigitChar then
      t1.flatMap (fun ch => [ch, ch])
    else t1
  if t2.length = 6 ∧ t2.all isHexDigitChar then
    let hv := t2.foldl (fun acc ch => acc * 16 + hexVal ch) 0
    .ok ((hv >>> 16) &&& 255, (hv >>> 8) &&& 255, hv &&& 255)
  else .error .invalidHexFormat

/-- Embedding of the parsing part of `Color.from_hex` (core.py): lstrip all
leading #, require exactly six hex digits, take the three byte slices. -/
def fromHexBytes (s : String) : Except Err (ℕ × ℕ × ℕ) :=
  let t := s.data.dropWhile (fun ch => ch = '#')
  match t with
  | [c1, c2, c3, c4, c5, c6] =>
    if [c1, c2, c3, c4, c5, c6].all isHexDigitChar then
      .ok (16 * hexVal c1 + hexVal c2, 16 * hexVal c3 + hexVal c4,
           16 * hexVal c5 + hexVal c6)
    else .error .invalidHexFormat
  | _ => .error .invalidHexFormat

/-- Embedding of `Color.from_hex` composed with `Color.from_srgb`. -/
noncomputable def fromHex (s : String) : Except Err ColorR :=
  (fromHexBytes s).map (fun v => fromSrgb v.1 v.2.1 v.2.2)

/-- Lowercase hex character for a digit value below 16. -/
def hexChar (n : ℕ) : Char :=
  if n < 10 then Char.ofNat ('0'.toNat + n) else Char.ofNat ('a'.toNat + (n - 10))

/-- The %02x formatting of one byte value. -/
def byteHex (b : ℕ) : List Char := [hexChar (b / 16 % 16), hexChar (b % 16)]

/-- Embedding of the hex output format of `Color.to_hex` and
`HexEncoding.__str__`: # followed by three lowercase %02x bytes. -/
def toHexChars (r g b : ℕ) : List Char :=
  '#' :: (byteHex r ++ byteHex g ++ byteHex b)

/-- Scanner for a literal token at the head of the input. -/
def expectLit (lit : List Char) (l : List Char) : Option (List Char) :=
  if l.take lit.length = lit then some (l.drop lit.length) else none

/-- Scanner for the regex fragment against leading whitespace. -/
def dropSpaces (l : List Char) : List Char := l.dropWhile Char.isWhitespace

/-- Numeric value of one decimal digit character. -/
def digitVal (ch : Char) : ℕ := ch.toNat - '0'.toNat

/-- Scanner for one or more decimal digits, returning their value. -/
def scanNat (l : List Char) : Option (ℕ × List Char) :=
  let ds := l.takeWhile Char.isDigit
  if ds.isEmpty then none
  else some (ds.foldl (fun acc ch => acc * 10 + digitVal ch) 0,
             l.dropWhile Char.isDigit)

/-- Scanner for the char class [0-9.]+ of the hsl/hsv/wcag-hcl regexes. -/
def scanNumChars (l : List Char) : (List Char × List Char) :=
  (l.takeWhile (fun ch => ch.isDigit || ch = '.'),
   l.dropWhile (fun ch => ch.isDigit || ch = '.'))

/-- Digits of a group turned into a natural number. -/
def digitsToNat (l : List Char) : ℕ :=
  l.foldl (fun acc ch => acc * 10 + digitVal ch) 0

/-- Python Decimal(text) on a [0-9.]+ group: digits with at most one dot and
at least one digit; anything else raises InvalidOperation. -/
def parseDecimalQ (l : List Char) : Option ℚ :=
  let intPart := l.takeWhile (fun ch => ch ≠ '.')
  let rest := l.dropWhile (fun ch => ch ≠ '.')
  match rest with
  | [] => if l.isEmpty then none else some (mkRat (digitsToNat intPart) 1)
  | _ :: fracPart =>
    if fracPart.contains '.' then none
    else if intPart.isEmpty ∧ fracPart.isEmpty then none
    else some (mkRat (digitsToNat (intPart ++ fracPart)) (10 ^ fracPart.length))

/-- Embedding of `RGBEncoding.parse` (encodings/rgb.py): the regex
rgb with three integer groups separated by commas and optional spaces,
then a 0-255 range check per channel. -/
def rgbParse (s : String) : Except Err (ℕ × ℕ × ℕ) :=
  let t := stripChars s.data
  match (do
    let r1 ← expectLit "rgb(".data t
    let (rv, r2) ← scanNat (dropSpaces r1)
    let r3 ← expectLit ",".data (dropSpaces r2)
    let (gv, r4) ← scanNat (dropSpaces r3)
    let r5 ← expectLit ",".data (dropSpaces r4)
    let (bv, r6) ← scanNat (dropSpaces r5)
    let _ ← expectLit ")".data (dropSpaces r6)
    some (rv, gv, bv) : Option (ℕ × ℕ × ℕ)) with
  | none => .error .invalidRgbFormat
  | some (rv, gv, bv) =>
    if rv ≤ 255 ∧ gv ≤ 255 ∧ bv ≤ 255 then .ok (rv, gv, bv)
    else .error .rangeViolation

/-- Shared scanner for the hsl/hsv/wcag-hcl numeric triples: each group is
[0-9.]+, the second always takes an optional percent sign, the third takes
one only when `pctOnThird` (hsl and hsv) is set. -/
def scanTriple (pctOnThird : Bool) (l : List Char) :
    Option (List Char × List Char × List Char) := do
  let (g1, r1) := scanNumChars l
  if g1.isEmpty then none
  let r2 ← expectLit ",".data (dropSpaces r1)
  let (g2, r3) := scanNumChars (dropSpaces r2)
  if g2.isEmpty then none
  let r4 := if r3.take 1 = ['%'] then r3.drop 1 else r3
  let r5 ← expectLit ",".data (dropSpaces r4)
  let (g3, r6) := scanNumChars (dropSpaces r5)
  if g3.isEmpty then none
  let r7 := if pctOnThird ∧ r6.take 1 = ['%'] then r6.drop 1 else r6
  let _ ← expectLit ")".data (dropSpaces r7)
  some (g1, g2, g3)

/-- Embedding of `HSLEncoding.parse` (encodings/hsl.py): regex match, then
Decimal conversion of the groups, then the range checks. -/
def hslParse (s : String) : Except Err (ℚ × ℚ × ℚ) :=
  let t := stripChars s.data
  match (do
    let r0 ← expectLit "hsl(".data t
    scanTriple true (dropSpaces r0) : Option (List Char × List Char × List Char)) with
  | none => .error .invalidHslFormat
  | some (g1, g2, g3) =>
    match parseDecimalQ g1, parseDecimalQ g2, parseDecimalQ g3 with
    | some hq, some sq, some lq =>
      if ¬(0 ≤ hq ∧ hq ≤ 360) then .error .rangeViolation
      else if ¬(0 ≤ sq ∧ sq ≤ 100) then .error .rangeViolation
      else if ¬(0 ≤ lq ∧ lq ≤ 100) then .error .rangeViolation
      else .ok (hq, sq, lq)
    | _, _, _ => .error .invalidOperation

/-- Embedding of `HSVEncoding.parse` (encodings/hsv.py). -/
def hsvParse (s : String) : Except Err (ℚ × ℚ × ℚ) :=
  let t := stripChars s.data
  match (do
    let r0 ← expectLit "hsv(".data t
    scanTriple true (dropSpaces r0) : Option (List Char × List Char × List Char)) with
  | none => .error .invalidHsvFormat
  | some (g1, g2, g3) =>
    match parseDecimalQ g1, parseDecimalQ g2, parseDecimalQ g3 with
    | some hq, some sq, some vq =>
      if ¬(0 ≤ hq ∧ hq ≤ 360) then .error .rangeViolation
      else if ¬(0 ≤ sq ∧ sq ≤ 100) then .error .rangeViolation
      else if ¬(0 ≤ vq ∧ vq ≤ 100) then .error .rangeViolation
      else .ok (hq, sq, vq)
    | _, _, _ => .error .invalidOperation

/-- Embedding of `WcagHCLEncoding.parse` (encodings/wcag_hcl.py): same
triple scanner, percent only on the second group, and no range checks. -/
def wcagHclParse (s : String) : Except Err (ℚ × ℚ × ℚ) :=
  let t := stripChars s.data
  match (do
    let r0 ← expectLit "wcag-hcl(".data t
    scanTriple false (dropSpaces r0) : Option (List Char × List Char × List Char)) with
  | none => .error .invalidWcagHclFormat
  | some (g1, g2, g3) =>
    match parseDecimalQ g1, parseDecimalQ g2, parseDecimalQ g3 with
    | some hq, some cq, some lq => .ok (hq, cq, lq)
    | _, _, _ => .error .invalidOperation

/-- Python str.lower() on the ASCII range (the named-color keys are ASCII). -/
def lowerChar (ch : Char) : Char :=
  if 'A' ≤ ch ∧ ch ≤ 'Z' then Char.ofNat (ch.toNat + 32) else ch

/-- The CSS named-color table of parse.py. -/
def cssNamedColors : List (String × String) :=
  [("black", "#000000"), ("white", "#ffffff"), ("red", "#ff0000"),
   ("green", "#008000"), ("blue", "#0000ff"), ("yellow", "#ffff00"),
   ("cyan", "#00ffff"), ("magenta", "#ff00ff"), ("silver", "#c0c0c0"),
   ("gray", "#808080"), ("maroon", "#800000"), ("olive", "#808000"),
   ("lime", "#00ff00"), ("aqua", "#00ffff"), ("teal", "#008080"),
   ("navy", "#000080"), ("fuchsia", "#ff00ff"), ("purple", "#800080"),
   ("orange", "#ffa500"), ("pink", "#ffc0cb"), ("brown", "#a52a2a"),
   ("gold", "#ffd700"), ("indigo", "#4b0082"), ("violet", "#ee82ee"),
   ("crimson", "#dc143c"), ("khaki", "#f0e68c"), ("salmon", "#fa8072"),
   ("coral", "#ff7f50"), ("turquoise", "#40e0d0"), ("plum", "#dda0dd"),
   ("tan", "#d2b48c")]

/-- The union of encodings `auto_parse` can return. -/
inductive EncodingU where
  | hexE (r g b : ℕ)
  | rgbE (r g b : ℕ)
  | hslE (h s l : ℚ)
  | hsvE (h s v : ℚ)
  | wcagE (h c l : ℚ)
  deriving DecidableEq, Repr

/-- Embedding of `auto_parse` (encodings/encodings.py): strip, then try the
hex pattern, then the four literal function heads, then the named-color
table on the lowercased text, else the unrecognized-format error. -/
def autoParse (s : String) : Except Err EncodingU :=
  let t := stripChars s.data
  let ts := String.mk t
  if t.take 1 = ['#'] ∨ (3 ≤ t.length ∧ t.length ≤ 6 ∧ t.all isHexDigitChar) then
    (hexParse ts).map (fun v => .hexE v.1 v.2.1 v.2.2)
  else if t.take 4 = "rgb(".data then
    (rgbParse ts).map (fun v => .rgbE v.1 v.2.1 v.2.2)
  else if t.take 4 = "hsl(".data then
    (hslParse ts).map (fun v => .hslE v.1 v.2.1 v.2.2)
  else if t.take 4 = "hsv(".data then
    (hsvParse ts).map (fun v => .hsvE v.1 v.2.1 v.2.2)
  else if t.take 9 = "wcag-hcl(".data then
    (wcagHclParse ts).map (fun v => .wcagE v.1 v.2.1 v.2.2)
  else
    match cssNamedColors.lookup (String.mk (t.map lowerChar)) with
    | some hexText => (hexParse hexText).map (fun v => .hexE v.1 v.2.1 v.2.2)
    | none => .error .unrecognizedFormat

/-- The 22 characters of the regex class [0-9a-fA-F]. -/
def hexDigits : List Char :=
  (List.range 10).map (fun n => Char.ofNat ('0'.toNat + n)) ++
    (List.range 6).map (fun n => Char.ofNat ('a'.toNat + n)) ++
    (List.range 6).map (fun n => Char.ofNat ('A'.toNat + n))

/-- The lowercase hex alphabet of the output format. -/
def lowerHexDigits : List Char := (List.range 16).map hexChar

/-! Helper lemmas about the WCAG-HCL layer. -/

theorem exceptOkBind {ε α β : Type} (a : α) (f : α → Except ε β) :
    (Except.ok (ε := ε) a >>= f) = f a := rfl

theorem encode_l (o : FloatOracle) (c : ColorQ) :
    (WcagHCLq.encode o c).l = wcagR * c.red + wcagG * c.green + wcagB * c.blue := by
  unfold WcagHCLq.encode
  dsimp only
  split <;> rfl

theorem clamp01_nonneg (x : ℚ) : 0 ≤ clamp01 x := le_max_left _ _

theorem clamp01_le_one (x : ℚ) : clamp01 x ≤ 1 :=
  max_le (by norm_num) (min_le_left _ _)

theorem clamp01_of_mem {x : ℚ} (h0 : 0 ≤ x) (h1 : x ≤ 1) : clamp01 x = x := by
  unfold clamp01
  rw [min_eq_right h1, max_eq_right h0]

theorem scaleStep_eq_none {g : ℚ} {acc : Option ℚ} {d : ℚ} :
    scaleStep g acc d = none ↔ acc = none ∧ d = 0 := by
  unfold scaleStep
  split_ifs with h1 h2
  · constructor
    · intro h
      cases acc <;> simp at h
    · rintro ⟨-, rfl⟩
      exact absurd h1 (lt_irrefl 0)
  · constructor
    · intro h
      cases acc <;> simp at h
    · rintro ⟨-, rfl⟩
      exact absurd h2 (lt_irrefl 0)
  · have hd : d = 0 := le_antisymm (not_lt.mp h1) (not_lt.mp h2)
    simp [hd]

theorem maxScaleQ_eq_none {g dr dg db : ℚ} :
    maxScaleQ g dr dg db = none ↔ dr = 0 ∧ dg = 0 ∧ db = 0 := by
  unfold maxScaleQ
  simp only [List.foldl_cons, List.foldl_nil]
  rw [scaleStep_eq_none, scaleStep_eq_none, scaleStep_eq_none]
  tauto

theorem luminance_mem_unit {o : FloatOracle} {c : ColorQ} (h : c.valid) :
    0 ≤ (WcagHCLq.encode o c).l ∧ (WcagHCLq.encode o c).l ≤ 1 := by
  obtain ⟨hr0, hr1, hg0, hg1, hb0, hb1⟩ := h
  rw [encode_l]
  unfold wcagR wcagG wcagB
  constructor <;> nlinarith

theorem calculateContrast_ratio (o : FloatOracle) (fg bg : ColorQ) :
    (calculateContrast o fg bg).ratio =
      if (WcagHCLq.encode o fg).l > (WcagHCLq.encode o bg).l then
        ((WcagHCLq.encode o fg).l + 1/20) / ((WcagHCLq.encode o bg).l + 1/20)
      else
        ((WcagHCLq.encode o bg).l + 1/20) / ((WcagHCLq.encode o fg).l + 1/20) := rfl

/-- C1: if the current contrast ratio already meets or exceeds the target
(level name or numeric ratio), `adjust_contrast` returns the two input colors
and the current `ContrastResult` unchanged, for every mode string. -/
theorem adjust_contrast_idempotent_when_met (o : FloatOracle) (fg bg : ColorQ)
    (target : Target) (adjust : String) (t : ℚ)
    (hget : getTargetRatio target = .ok t)
    (hmet : t ≤ (calculateContrast o fg bg).ratio) :
    adjustContrast o fg bg target adjust =
      .ok (fg, bg, calculateContrast o fg bg) := by
  unfold adjustContrast
  rw [hget, exceptOkBind, if_pos hmet]
  rfl

theorem grayHalf_lum : (WcagHCLq.encode o0 grayHalf).l = 1/2 := by
  rw [encode_l]
  norm_num [wcagR, wcagG, wcagB, grayHalf]

theorem grayHalf_ratio_eq_one :
    (calculateContrast o0 grayHalf grayHalf).ratio = 1 := by
  rw [calculateContrast_ratio, grayHalf_lum]
  norm_num

/-- Witness for C1: a gray pair already at ratio 1 with target ratio 1 and the
invalid mode string both is returned unchanged. -/
theorem adjust_contrast_idempotent_when_met_witness :
    adjustContrast o0 grayHalf grayHalf (.num 1) "both" =
      .ok (grayHalf, grayHalf, calculateContrast o0 grayHalf grayHalf) :=
  adjust_contrast_idempotent_when_met o0 grayHalf grayHalf (.num 1) "both" 1 rfl
    (by rw [grayHalf_ratio_eq_one])

/-- C9: mode validation happens only after the already-meets-target check.
For an invalid mode string, the call still returns the inputs unchanged when
the current ratio meets the target, and errors only when it is below it. -/
theorem adjust_mode_checked_after_target (o : FloatOracle) (fg bg : ColorQ)
    (target : Target) (adjust : String) (t : ℚ)
    (hfg : adjust ≠ "fg") (hbg : adjust ≠ "bg") (hauto : adjust ≠ "auto")
    (hget : getTargetRatio target = .ok t) :
    (t ≤ (calculateContrast o fg bg).ratio →
      adjustContrast o fg bg target adjust =
        .ok (fg, bg, calculateContrast o fg bg)) ∧
    ((calculateContrast o fg bg).ratio < t →
      adjustContrast o fg bg target adjust = .error .invalidAdjustTarget) := by
  constructor
  · intro hmet
    unfold adjustContrast
    rw [hget, exceptOkBind, if_pos hmet]
    rfl
  · intro hlt
    unfold adjustContrast
    rw [hget, exceptOkBind, if_neg (not_le.mpr hlt), if_neg hfg, if_neg hbg,
      if_neg hauto]
    rfl

/-- Witness for C9: with mode both and a gray pair at ratio 1, target AA is
unmet and the invalid-mode error is raised; target ratio 1 is met and the
inputs come back unchanged. -/
theorem adjust_mode_checked_after_target_witness :
    adjustContrast o0 grayHalf grayHalf (.num 1) "both" =
      .ok (grayHalf, grayHalf, calculateContrast o0 grayHalf grayHalf) ∧
    adjustContrast o0 grayHalf grayHalf (.level "AA") "both" =
      .error .invalidAdjustTarget :=
  ⟨(adjust_mode_checked_after_target o0 grayHalf grayHalf (.num 1) "both" 1
      (by decide) (by decide) (by decide) rfl).1
      (by rw [grayHalf_ratio_eq_one]),
   (adjust_mode_checked_after_target o0 grayHalf grayHalf (.level "AA") "both"
      (9/2) (by decide) (by decide) (by decide) rfl).2
      (by rw [grayHalf_ratio_eq_one]; norm_num)⟩

/-- C4: for valid colors the contrast ratio of `calculate_contrast` lies in
the closed interval [1, 21] and is symmetric in its two arguments. -/
theorem contrast_ratio_bounds_and_symmetry (o : FloatOracle) (a b : ColorQ)
    (ha : a.valid) (hb : b.valid) :
    1 ≤ (calculateContrast o a b).ratio ∧
    (calculateContrast o a b).ratio ≤ 21 ∧
    (calculateContrast o a b).ratio = (calculateContrast o b a).ratio := by
  obtain ⟨ha0, ha1⟩ := luminance_mem_unit (o := o) ha
  obtain ⟨hb0, hb1⟩ := luminance_mem_unit (o := o) hb
  rw [calculateContrast_ratio, calculateContrast_ratio]
  set l1 := (WcagHCLq.encode o a).l with hl1
  set l2 := (WcagHCLq.encode o b).l with hl2
  have h120 : (0:ℚ) < l1 + 1/20 := by linarith
  have h220 : (0:ℚ) < l2 + 1/20 := by linarith
  refine ⟨?_, ?_, ?_⟩
  · split_ifs with h
    · rw [le_div_iff₀ h220]; linarith
    · rw [le_div_iff₀ h120]; linarith
  · split_ifs with h
    · rw [div_le_iff₀ h220]; linarith
    · rw [div_le_iff₀ h120]; linarith
  · rcases lt_trichotomy l1 l2 with h | h | h
    · rw [if_neg (not_lt.mpr h.le), if_pos h]
    · rw [h]
    · rw [if_pos h, if_neg (not_lt.mpr h.le)]

/-- Witness for C4: the bounds and symmetry at a concrete gray/black pair. -/
theorem contrast_ratio_bounds_and_symmetry_witness :
    1 ≤ (calculateContrast o0 grayHalf ⟨0, 0, 0⟩).ratio ∧
    (calculateContrast o0 grayHalf ⟨0, 0, 0⟩).ratio ≤ 21 ∧
    (calculateContrast o0 grayHalf ⟨0, 0, 0⟩).ratio =
      (calculateContrast o0 ⟨0, 0, 0⟩ grayHalf).ratio :=
  contrast_ratio_bounds_and_symmetry o0 grayHalf ⟨0, 0, 0⟩
    (by norm_num [ColorQ.valid, grayHalf]) (by norm_num [ColorQ.valid])

/-- C5: decoding a WCAG-HCL triple with zero chroma yields the achromatic
color with all channels equal to the clamped luminance, its measured
luminance is l (well within the 0.001 tolerance), and the result does not
depend on the hue (nor on the trigonometric oracle). -/
theorem wcag_hcl_achromatic_decode (o o2 : FloatOracle) (hv h2 l : ℚ)
    (hl0 : 0 ≤ l) (hl1 : l ≤ 1) :
    WcagHCLq.decode o ⟨hv, 0, l⟩ = .ok ⟨l, l, l⟩ ∧
    |ColorQ.luminance o ⟨l, l, l⟩ - l| ≤ 1/1000 ∧
    WcagHCLq.decode o ⟨hv, 0, l⟩ = WcagHCLq.decode o2 ⟨h2, 0, l⟩ := by
  have hdec : ∀ (og : FloatOracle) (hh : ℚ),
      WcagHCLq.decode og ⟨hh, 0, l⟩ = .ok ⟨l, l, l⟩ := by
    intro og hh
    unfold WcagHCLq.decode
    rw [if_pos rfl]
    dsimp only
    rw [clamp01_of_mem hl0 hl1]
  refine ⟨hdec o hv, ?_, by rw [hdec o hv, hdec o2 h2]⟩
  unfold ColorQ.luminance
  rw [encode_l]
  have hsum : wcagR * (ColorQ.mk l l l).red + wcagG * (ColorQ.mk l l l).green +
      wcagB * (ColorQ.mk l l l).blue = l := by
    unfold wcagR wcagG wcagB
    dsimp only
    ring
  rw [hsum]
  norm_num

/-- Witness for C5: the achromatic decode at luminance one half, hue 7. -/
theorem wcag_hcl_achromatic_decode_witness :
    WcagHCLq.decode o0 ⟨7, 0, 1/2⟩ = .ok ⟨1/2, 1/2, 1/2⟩ ∧
    |ColorQ.luminance o0 ⟨1/2, 1/2, 1/2⟩ - 1/2| ≤ 1/1000 ∧
    WcagHCLq.decode o0 ⟨7, 0, 1/2⟩ =
      WcagHCLq.decode ⟨fun _ => 0, fun _ => 1, fun _ _ => 3, fun _ => 5⟩
        ⟨123, 0, 1/2⟩ :=
  wcag_hcl_achromatic_decode o0 ⟨fun _ => 0, fun _ => 1, fun _ _ => 3, fun _ => 5⟩
    7 123 (1/2) (by norm_num) (by norm_num)

/-- C10: the WCAG-HCL decode is total (never raises) whenever the hue's
cosine and sine are not both zero, and its output always has every channel
clamped into the unit interval, so Color construction cannot fail on it.
The luminance is unrestricted, as for the solver-produced candidates. -/
theorem wcag_hcl_decode_total_clamped (o : FloatOracle) (e : WcagHCLq)
    (hnd : ¬(o.cosDeg e.h = 0 ∧ o.sinDeg e.h = 0)) (hc : 0 ≤ e.c) :
    ∃ col, WcagHCLq.decode o e = .ok col ∧ col.valid := by
  by_cases h0 : e.c = 0
  · refine ⟨⟨clamp01 e.l, clamp01 e.l, clamp01 e.l⟩, ?_, ?_⟩
    · unfold WcagHCLq.decode
      rw [if_pos h0]
    · exact ⟨clamp01_nonneg _, clamp01_le_one _, clamp01_nonneg _,
        clamp01_le_one _, clamp01_nonneg _, clamp01_le_one _⟩
  · set ux := o.cosDeg e.h with hux
    set uy := o.sinDeg e.h with huy
    have hdir : ¬(ux * u1R + uy * u2R = 0 ∧ ux * u1G + uy * u2G = 0 ∧
        ux * u1B + uy * u2B = 0) := by
      rintro ⟨hr, -, hb⟩
      rw [u1B, u2B] at hb
      have huy0 : uy = 0 := by
        have hmul : uy * (995351 / 1000000 : ℚ) = 0 := by linarith
        rcases mul_eq_zero.mp hmul with hy | hy
        · exact hy
        · norm_num at hy
      rw [u1R, u2R, huy0] at hr
      have hux0 : ux = 0 := by
        have hmul : ux * (958546 / 1000000 : ℚ) = 0 := by linarith
        rcases mul_eq_zero.mp hmul with hx | hx
        · exact hx
        · norm_num at hx
      exact hnd ⟨hux0, huy0⟩
    obtain ⟨ms, hms⟩ : ∃ ms, maxScaleQ e.l (ux * u1R + uy * u2R)
        (ux * u1G + uy * u2G) (ux * u1B + uy * u2B) = some ms := by
      cases hcase : maxScaleQ e.l (ux * u1R + uy * u2R) (ux * u1G + uy * u2G)
          (ux * u1B + uy * u2B) with
      | none => exact absurd (maxScaleQ_eq_none.mp hcase) hdir
      | some ms => exact ⟨ms, rfl⟩
    have hdecode : WcagHCLq.decode o e =
        .ok ⟨clamp01 (e.l + ms * (e.c / 100) * (ux * u1R + uy * u2R)),
             clamp01 (e.l + ms * (e.c / 100) * (ux * u1G + uy * u2G)),
             clamp01 (e.l + ms * (e.c / 100) * (ux * u1B + uy * u2B))⟩ := by
      unfold WcagHCLq.decode
      rw [if_neg h0]
      dsimp only
      rw [← hux, ← huy, hms]
    exact ⟨_, hdecode, ⟨clamp01_nonneg _, clamp01_le_one _, clamp01_nonneg _,
      clamp01_le_one _, clamp01_nonneg _, clamp01_le_one _⟩⟩

/-- Witness for C10: a decode with out-of-range luminance 3/2 and chroma 50
succeeds with a valid, clamped color. -/
theorem wcag_hcl_decode_total_clamped_witness :
    ∃ col, WcagHCLq.decode o0 ⟨0, 50, 3/2⟩ = .ok col ∧ col.valid :=
  wcag_hcl_decode_total_clamped o0 ⟨0, 50, 3/2⟩
    (by norm_num [o0]) (by norm_num)

theorem exceptPureBind {ε α β : Type} (a : α) (f : α → Except ε β) :
    ((pure a : Except ε α) >>= f) = f a := rfl

theorem bestCandidate_two (t : ℚ) (p1 p2 : ColorQ × ℚ × ℚ) :
    bestCandidate t [p1, p2] =
      if t ≤ p1.2.1 ∧ t ≤ p2.2.1 then
        (if p2.2.1 < p1.2.1 then some p2 else some p1)
      else if t ≤ p1.2.1 then some p1
      else if t ≤ p2.2.1 then some p2
      else none := by
  unfold bestCandidate
  simp only [List.foldl_cons, List.foldl_nil]
  by_cases h1 : t ≤ p1.2.1 <;> by_cases h2 : t ≤ p2.2.1 <;>
    simp [h1, h2]

theorem closestCandidate_two (t : ℚ) (p1 p2 : ColorQ × ℚ × ℚ) (d : ColorQ) :
    closestCandidate t [p1, p2] d =
      if |p2.2.1 - t| < |p1.2.1 - t| then p2.1 else p1.1 := by
  simp only [closestCandidate, sortByKey, insertByKey]
  by_cases h : |p1.2.1 - t| ≤ |p2.2.1 - t|
  · rw [if_pos h, if_neg (not_lt.mpr h)]
  · rw [if_neg h, if_pos (not_le.mp h)]

/-- C2: the single-color adjustment computes exactly the two candidate
luminances target*(Lfixed+0.05)-0.05 and (Lfixed+0.05)/target-0.05, decodes
each at the adjustable color's (h, c), re-measures each candidate's ratio
against the fixed color, and returns: among candidates meeting the target,
the one with the smallest achieved ratio; if none meets it, the candidate
whose achieved ratio is numerically closest to the target. -/
theorem adjust_lightness_selection_policy (o : FloatOracle)
    (colorToAdjust fixedColor : ColorQ) (t : ℚ) (ht : t ≠ 0)
    (cand1 cand2 : ColorQ)
    (h1 : WcagHCLq.decode o ⟨(WcagHCLq.encode o colorToAdjust).h,
            (WcagHCLq.encode o colorToAdjust).c,
            t * ((WcagHCLq.encode o fixedColor).l + 1/20) - 1/20⟩ = .ok cand1)
    (h2 : WcagHCLq.decode o ⟨(WcagHCLq.encode o colorToAdjust).h,
            (WcagHCLq.encode o colorToAdjust).c,
            ((WcagHCLq.encode o fixedColor).l + 1/20) / t - 1/20⟩ = .ok cand2) :
    adjustLightnessForContrast o colorToAdjust fixedColor t =
      .ok (if t ≤ (calculateContrast o cand1 fixedColor).ratio ∧
              t ≤ (calculateContrast o cand2 fixedColor).ratio then
             (if (calculateContrast o cand2 fixedColor).ratio <
                 (calculateContrast o cand1 fixedColor).ratio then cand2 else cand1)
           else if t ≤ (calculateContrast o cand1 fixedColor).ratio then cand1
           else if t ≤ (calculateContrast o cand2 fixedColor).ratio then cand2
           else if |(calculateContrast o cand2 fixedColor).ratio - t| <
                   |(calculateContrast o cand1 fixedColor).ratio - t| then cand2
           else cand1) := by
  conv_lhs => unfold adjustLightnessForContrast
  rw [if_neg ht, h1, exceptOkBind, h2, exceptOkBind, exceptPureBind]
  dsimp only
  rw [bestCandidate_two, closestCandidate_two]
  dsimp only
  split_ifs <;> rfl

theorem encode_o0_grayHalf : WcagHCLq.encode o0 grayHalf = ⟨0, 0, 1/2⟩ := by
  simp only [WcagHCLq.encode]
  norm_num [wcagR, wcagG, wcagB, u1R, u1G, u1B, u2R, u2G, u2B, grayHalf]

/-- Witness for C2: adjusting mid gray against itself toward ratio 4.5
returns the darker candidate, which achieves the target exactly. -/
theorem adjust_lightness_selection_policy_witness :
    adjustLightnessForContrast o0 grayHalf grayHalf (9/2) =
      .ok ⟨13/180, 13/180, 13/180⟩ := by
  have hd1 : WcagHCLq.decode o0 ⟨(WcagHCLq.encode o0 grayHalf).h,
      (WcagHCLq.encode o0 grayHalf).c,
      (9/2) * ((WcagHCLq.encode o0 grayHalf).l + 1/20) - 1/20⟩ =
      .ok ⟨1, 1, 1⟩ := by
    rw [encode_o0_grayHalf]
    unfold WcagHCLq.decode
    norm_num [clamp01]
  have hd2 : WcagHCLq.decode o0 ⟨(WcagHCLq.encode o0 grayHalf).h,
      (WcagHCLq.encode o0 grayHalf).c,
      ((WcagHCLq.encode o0 grayHalf).l + 1/20) / (9/2) - 1/20⟩ =
      .ok ⟨13/180, 13/180, 13/180⟩ := by
    rw [encode_o0_grayHalf]
    unfold WcagHCLq.decode
    norm_num [clamp01]
  have key := adjust_lightness_selection_policy o0 grayHalf grayHalf (9/2)
    (by norm_num) ⟨1, 1, 1⟩ ⟨13/180, 13/180, 13/180⟩ hd1 hd2
  have hr1 : (calculateContrast o0 ⟨1, 1, 1⟩ grayHalf).ratio = 21/11 := by
    rw [calculateContrast_ratio, encode_l, encode_l]
    norm_num [wcagR, wcagG, wcagB, grayHalf]
  have hr2 : (calculateContrast o0 ⟨13/180, 13/180, 13/180⟩ grayHalf).ratio
      = 9/2 := by
    rw [calculateContrast_ratio, encode_l, encode_l]
    norm_num [wcagR, wcagG, wcagB, grayHalf]
  rw [key, hr1, hr2]
  norm_num

/-! The sRGB round trip. -/

theorem trunc_half_clamp (c : ℕ) (hc : c ≤ 255) :
    max 0 (min 255 (realTrunc ((c:ℝ) + 0.5))) = c := by
  have h0 : (0:ℝ) ≤ (c:ℝ) + 0.5 := by positivity
  unfold realTrunc
  rw [if_pos h0]
  have hfl : ⌊(c:ℝ) + 0.5⌋ = (c:ℤ) := by
    rw [Int.floor_eq_iff]
    constructor
    · push_cast
      linarith
    · push_cast
      linarith
  rw [hfl]
  rw [min_eq_right (by exact_mod_cast hc), max_eq_right (by positivity)]

theorem srgb_channel_roundtrip (c : ℕ) (hc : c ≤ 255) :
    linearToSrgb (srgbToLinear c) = c := by
  by_cases hsmall : c ≤ 10
  · have hc10 : (c:ℝ) ≤ 10 := by exact_mod_cast hsmall
    have hnorm : ((c:ℝ)/255) ≤ 0.04045 := by
      rw [div_le_iff₀ (by norm_num : (0:ℝ) < 255)]
      linarith
    unfold srgbToLinear
    dsimp only
    rw [if_pos hnorm]
    unfold linearToSrgb
    dsimp only
    have hlin : (c:ℝ)/255/12.92 ≤ 0.0031308 := by
      rw [div_le_iff₀ (by norm_num : (0:ℝ) < 12.92),
        div_le_iff₀ (by norm_num : (0:ℝ) < 255)]
      linarith
    rw [if_pos hlin]
    have hval : (c:ℝ)/255/12.92 * 12.92 * 255 + 0.5 = (c:ℝ) + 0.5 := by
      field_simp
      ring
    rw [hval, trunc_half_clamp c hc]
  · have hc11 : (11:ℝ) ≤ (c:ℝ) := by exact_mod_cast Nat.lt_of_not_le hsmall
    have hnorm : ¬(((c:ℝ)/255) ≤ 0.04045) := by
      rw [not_le, lt_div_iff₀ (by norm_num : (0:ℝ) < 255)]
      linarith
    unfold srgbToLinear
    dsimp only
    rw [if_neg hnorm]
    set x := (((c:ℝ)/255) + 0.055)/1.055 with hxdef
    have hx0 : (0:ℝ) < x := by
      rw [hxdef]
      positivity
    have hx11 : (1001/10761 : ℝ) ≤ x := by
      rw [hxdef, show (1001/10761 : ℝ) = ((11:ℝ)/255 + 0.055)/1.055 by norm_num]
      gcongr
    have hpow12 : ((1001/10761:ℝ)^(2.4:ℝ))^(5:ℕ) = (1001/10761:ℝ)^(12:ℕ) := by
      rw [← Real.rpow_natCast ((1001/10761:ℝ)^(2.4:ℝ)) 5,
        ← Real.rpow_mul (by norm_num : (0:ℝ) ≤ 1001/10761)]
      rw [show ((2.4:ℝ) * ((5:ℕ):ℝ)) = ((12:ℕ):ℝ) by push_cast; norm_num]
      rw [Real.rpow_natCast]
    have hb12 : ((0.0031308:ℝ))^(5:ℕ) < (1001/10761:ℝ)^(12:ℕ) := by norm_num
    have hbase : (0.0031308:ℝ) < (1001/10761:ℝ)^(2.4:ℝ) := by
      have h5 : ((0.0031308:ℝ))^(5:ℕ) < ((1001/10761:ℝ)^(2.4:ℝ))^(5:ℕ) := by
        rw [hpow12]
        exact hb12
      exact lt_of_pow_lt_pow_left₀ 5 (Real.rpow_nonneg (by norm_num) _) h5
    have hmono : (1001/10761:ℝ)^(2.4:ℝ) ≤ x^(2.4:ℝ) :=
      Real.rpow_le_rpow (by norm_num) hx11 (by norm_num)
    have hgt : ¬(x ^ (2.4:ℝ) ≤ 0.0031308) := not_le.mpr (lt_of_lt_of_le hbase hmono)
    unfold linearToSrgb
    dsimp only
    rw [if_neg hgt]
    have hpow : (x ^ (2.4:ℝ)) ^ ((1:ℝ)/2.4) = x := by
      rw [← Real.rpow_mul hx0.le]
      rw [show ((2.4:ℝ) * ((1:ℝ)/2.4)) = 1 by norm_num]
      exact Real.rpow_one x
    rw [hpow]
    have hval : (1.055 * x - 0.055) * 255 + 0.5 = (c:ℝ) + 0.5 := by
      rw [hxdef]
      field_simp
      ring
    rw [hval, trunc_half_clamp c hc]

/-- C3: converting any byte triple to linear RGB with from_srgb and back
with to_srgb returns it exactly, after round-half-up and clamping. -/
theorem srgb_linear_roundtrip (r g b : ℕ)
    (hr : r ≤ 255) (hg : g ≤ 255) (hb : b ≤ 255) :
    toSrgb (fromSrgb r g b) = ((r:ℤ), (g:ℤ), (b:ℤ)) := by
  unfold toSrgb fromSrgb
  dsimp only
  rw [srgb_channel_roundtrip r hr, srgb_channel_roundtrip g hg,
    srgb_channel_roundtrip b hb]

/-- Witness for C3: the round trip at the bytes (3, 10, 255), which exercise
the linear branch on both edges and the power branch. -/
theorem srgb_linear_roundtrip_witness :
    toSrgb (fromSrgb 3 10 255) = ((3:ℤ), (10:ℤ), (255:ℤ)) :=
  srgb_linear_roundtrip 3 10 255 (by decide) (by decide) (by decide)

/-! Alpha compositing. -/

theorem srgbToLinear_255 : srgbToLinear 255 = 1 := by
  unfold srgbToLinear
  dsimp only
  rw [if_neg (by norm_num)]
  rw [show ((((255:ℕ):ℝ)/255 + 0.055)/1.055) = 1 by norm_num]
  exact Real.one_rpow _

theorem srgbToLinear_0 : srgbToLinear 0 = 0 := by
  unfold srgbToLinear
  dsimp only
  rw [if_pos (by norm_num)]
  norm_num

theorem linearToSrgb_one : linearToSrgb 1 = 255 := by
  unfold linearToSrgb
  dsimp only
  rw [if_neg (by norm_num), Real.one_rpow]
  rw [show ((1.055 * 1 - 0.055) * 255 + 0.5 : ℝ) = (255:ℝ) + 0.5 by norm_num]
  exact trunc_half_clamp 255 le_rfl

theorem linearToSrgb_half : linearToSrgb (1/2) = 188 := by
  unfold linearToSrgb
  dsimp only
  rw [if_neg (by norm_num)]
  set y := ((1/2:ℝ)) ^ ((1:ℝ)/2.4) with hydef
  have hy0 : (0:ℝ) ≤ y := Real.rpow_nonneg (by norm_num) _
  have hy12 : y ^ (12:ℕ) = 1/32 := by
    rw [hydef, ← Real.rpow_natCast ((1/2:ℝ) ^ ((1:ℝ)/2.4)) 12,
      ← Real.rpow_mul (by norm_num : (0:ℝ) ≤ 1/2)]
    rw [show (((1:ℝ)/2.4) * ((12:ℕ):ℝ)) = ((5:ℕ):ℝ) by push_cast; norm_num]
    rw [Real.rpow_natCast]
    norm_num
  have hylb : (2687/3587 : ℝ) ≤ y := by
    have h12 : ((2687/3587:ℝ)) ^ (12:ℕ) ≤ y ^ (12:ℕ) := by
      rw [hy12]
      norm_num
    exact le_of_pow_le_pow_left₀ (by norm_num) hy0 h12
  have hyub : y < (8101/10761 : ℝ) := by
    have h12 : y ^ (12:ℕ) < ((8101/10761:ℝ)) ^ (12:ℕ) := by
      rw [hy12]
      norm_num
    exact lt_of_pow_lt_pow_left₀ 12 (by norm_num) h12
  have h0 : (0:ℝ) ≤ (1.055 * y - 0.055) * 255 + 0.5 := by nlinarith
  unfold realTrunc
  rw [if_pos h0]
  have hfl : ⌊(1.055 * y - 0.055) * 255 + 0.5⌋ = (188:ℤ) := by
    rw [Int.floor_eq_iff]
    constructor
    · push_cast
      nlinarith
    · push_cast
      nlinarith
  rw [hfl]
  norm_num

theorem over_concrete :
    (ColorR.withAlpha (fromSrgb 255 0 0) (1/2)).over (fromSrgb 255 255 255) =
      ⟨1, 1/2, 1/2⟩ := by
  unfold ColorR.withAlpha ColorWithAlphaR.over fromSrgb
  dsimp only
  rw [srgbToLinear_255, srgbToLinear_0]
  norm_num

/-- C8 counterexample: the byte-level `RGBA.over` of models.py, fed the same
input as the claim's exactness test, yields (255, 127, 127) rather than the
(255, 188, 188) that the linear-space blend of `ColorWithAlpha.over`
produces: alpha compositing is not computed in linear RGB space on that
code path. -/
theorem rgba_over_not_linear_counterexample :
    RGBAq.over ⟨255, 0, 0, 1/2⟩ 255 255 255 =
      .ok ((255:ℤ), (127:ℤ), (127:ℤ)) ∧
    toSrgb ((ColorR.withAlpha (fromSrgb 255 0 0) (1/2)).over
        (fromSrgb 255 255 255)) = ((255:ℤ), (188:ℤ), (188:ℤ)) ∧
    ((255:ℤ), (127:ℤ), (127:ℤ)) ≠ ((255:ℤ), (188:ℤ), (188:ℤ)) := by
  refine ⟨?_, ?_, by decide⟩
  · unfold RGBAq.over
    dsimp only
    norm_num [qTrunc]
  · rw [over_concrete]
    unfold toSrgb
    dsimp only
    rw [linearToSrgb_one, linearToSrgb_half]

/-- C8 amended: `ColorWithAlpha.over` composites per channel in linear RGB
space as alpha*fg + (1-alpha)*bg, and on #ff0000 with alpha 0.5 over #ffffff
it yields exactly (255, 188, 188); the byte-level `RGBA.over` applies the
same formula directly to the sRGB byte values with int truncation, which on
the same input yields (255, 127, 127) instead. -/
theorem alpha_compositing_amended :
    (∀ (ca : ColorWithAlphaR) (bgc : ColorR),
      (ca.over bgc).red = ca.alpha * ca.color.red + (1 - ca.alpha) * bgc.red ∧
      (ca.over bgc).green = ca.alpha * ca.color.green + (1 - ca.alpha) * bgc.green ∧
      (ca.over bgc).blue = ca.alpha * ca.color.blue + (1 - ca.alpha) * bgc.blue) ∧
    toSrgb ((ColorR.withAlpha (fromSrgb 255 0 0) (1/2)).over
        (fromSrgb 255 255 255)) = ((255:ℤ), (188:ℤ), (188:ℤ)) ∧
    RGBAq.over ⟨255, 0, 0, 1/2⟩ 255 255 255 =
      .ok ((255:ℤ), (127:ℤ), (127:ℤ)) := by
  refine ⟨fun ca bgc => ⟨rfl, rfl, rfl⟩, ?_, ?_⟩
  · rw [over_concrete]
    unfold toSrgb
    dsimp only
    rw [linearToSrgb_one, linearToSrgb_half]
  · unfold RGBAq.over
    dsimp only
    norm_num [qTrunc]

/-! Hex parsing and auto-detection. -/

theorem hexDigit_props : ∀ ch ∈ hexDigits,
    isHexDigitChar ch = true ∧ ch.isWhitespace = false ∧ ch ≠ '#' ∧
    hexDigitVal (lowerChar ch) = hexDigitVal ch ∧ hexVal ch ≤ 15 ∧
    lowerChar ch ∈ hexDigits := by decide

theorem land255 : ∀ n : ℕ, n &&& 255 = n % 256 := fun n => by
  have h := Nat.and_pow_two_sub_one_eq_mod n 8
  norm_num at h
  exact h

theorem hexParse_six (c1 c2 c3 c4 c5 c6 : Char)
    (m1 : c1 ∈ hexDigits) (m2 : c2 ∈ hexDigits) (m3 : c3 ∈ hexDigits)
    (m4 : c4 ∈ hexDigits) (m5 : c5 ∈ hexDigits) (m6 : c6 ∈ hexDigits) :
    hexParse (String.mk [c1, c2, c3, c4, c5, c6]) =
      .ok (16 * hexVal c1 + hexVal c2, 16 * hexVal c3 + hexVal c4,
           16 * hexVal c5 + hexVal c6) := by
  obtain ⟨hh1, hw1, hn1, -, hb1, -⟩ := hexDigit_props c1 m1
  obtain ⟨hh2, hw2, hn2, -, hb2, -⟩ := hexDigit_props c2 m2
  obtain ⟨hh3, hw3, hn3, -, hb3, -⟩ := hexDigit_props c3 m3
  obtain ⟨hh4, hw4, hn4, -, hb4, -⟩ := hexDigit_props c4 m4
  obtain ⟨hh5, hw5, hn5, -, hb5, -⟩ := hexDigit_props c5 m5
  obtain ⟨hh6, hw6, hn6, -, hb6, -⟩ := hexDigit_props c6 m6
  unfold hexParse stripChars
  simp only [String.data, List.dropWhile_cons, hw1, hw6, Bool.false_eq_true,
    if_false, List.reverse_cons, List.reverse_nil, List.nil_append,
    List.cons_append, List.dropWhile_nil, List.reverse_reverse]
  simp only [List.take, List.cons.injEq, hn1, false_and, if_false,
    List.length_cons, List.length_nil]
  norm_num
  simp only [List.all_cons, List.all_nil, hh1, hh2, hh3, hh4, hh5, hh6,
    Bool.and_self, Bool.true_and, if_true, List.foldl_cons, List.foldl_nil]
  rw [if_pos (by norm_num)]
  rw [Nat.shiftRight_eq_div_pow, Nat.shiftRight_eq_div_pow, land255, land255,
    land255]
  simp only [Except.ok.injEq, Prod.mk.injEq]
  norm_num
  refine ⟨?_, ?_, ?_⟩ <;> omega

theorem hexParse_hash6 (c1 c2 c3 c4 c5 c6 : Char)
    (m1 : c1 ∈ hexDigits) (m2 : c2 ∈ hexDigits) (m3 : c3 ∈ hexDigits)
    (m4 : c4 ∈ hexDigits) (m5 : c5 ∈ hexDigits) (m6 : c6 ∈ hexDigits) :
    hexParse (String.mk ['#', c1, c2, c3, c4, c5, c6]) =
      hexParse (String.mk [c1, c2, c3, c4, c5, c6]) := by
  obtain ⟨hh1, hw1, hn1, -, hb1, -⟩ := hexDigit_props c1 m1
  obtain ⟨hh2, hw2, hn2, -, hb2, -⟩ := hexDigit_props c2 m2
  obtain ⟨hh3, hw3, hn3, -, hb3, -⟩ := hexDigit_props c3 m3
  obtain ⟨hh4, hw4, hn4, -, hb4, -⟩ := hexDigit_props c4 m4
  obtain ⟨hh5, hw5, hn5, -, hb5, -⟩ := hexDigit_props c5 m5
  obtain ⟨hh6, hw6, hn6, -, hb6, -⟩ := hexDigit_props c6 m6
  rw [hexParse_six c1 c2 c3 c4 c5 c6 m1 m2 m3 m4 m5 m6]
  unfold hexParse stripChars
  simp only [String.data, List.dropWhile_cons, hw6,
    show ('#').isWhitespace = false from rfl, Bool.false_eq_true,
    if_false, List.reverse_cons, List.reverse_nil, List.nil_append,
    List.cons_append, List.dropWhile_nil, List.reverse_reverse]
  simp only [List.take, List.drop, if_true, List.length_cons, List.length_nil]
  norm_num
  simp only [List.all_cons, List.all_nil, hh1, hh2, hh3, hh4, hh5, hh6,
    Bool.and_self, Bool.true_and, List.foldl_cons, List.foldl_nil]
  rw [if_pos (by norm_num)]
  rw [Nat.shiftRight_eq_div_pow, Nat.shiftRight_eq_div_pow, land255, land255,
    land255]
  simp only [Except.ok.injEq, Prod.mk.injEq]
  norm_num
  refine ⟨?_, ?_, ?_⟩ <;> omega

theorem hexParse_three (c1 c2 c3 : Char)
    (m1 : c1 ∈ hexDigits) (m2 : c2 ∈ hexDigits) (m3 : c3 ∈ hexDigits) :
    hexParse (String.mk [c1, c2, c3]) =
      .ok (16 * hexVal c1 + hexVal c1, 16 * hexVal c2 + hexVal c2,
           16 * hexVal c3 + hexVal c3) := by
  obtain ⟨hh1, hw1, hn1, -, hb1, -⟩ := hexDigit_props c1 m1
  obtain ⟨hh2, hw2, hn2, -, hb2, -⟩ := hexDigit_props c2 m2
  obtain ⟨hh3, hw3, hn3, -, hb3, -⟩ := hexDigit_props c3 m3
  unfold hexParse stripChars
  simp only [String.data, List.dropWhile_cons, hw1, hw3, Bool.false_eq_true,
    if_false, List.reverse_cons, List.reverse_nil, List.nil_append,
    List.cons_append, List.dropWhile_nil, List.reverse_reverse]
  simp only [List.take, List.cons.injEq, hn1, false_and, if_false,
    List.length_cons, List.length_nil]
  simp only [List.all_cons, List.all_nil, hh1, hh2, hh3,
    Bool.and_self, Bool.true_and]
  norm_num
  simp only [List.flatMap_cons, List.flatMap_nil, List.cons_append,
    List.nil_append, List.length_cons, List.length_nil, List.all_cons,
    List.all_nil, hh1, hh2, hh3, Bool.and_self, Bool.true_and,
    List.foldl_cons, List.foldl_nil]
  rw [if_pos (by norm_num)]
  rw [Nat.shiftRight_eq_div_pow, Nat.shiftRight_eq_div_pow, land255, land255,
    land255]
  simp only [Except.ok.injEq, Prod.mk.injEq]
  norm_num
  refine ⟨?_, ?_, ?_⟩
  · have hdiv : (((((hexVal c1 * 16 + hexVal c1) * 16 + hexVal c2) * 16 +
        hexVal c2) * 16 + hexVal c3) * 16 + hexVal c3) / 65536 =
        17 * hexVal c1 := by omega
    rw [hdiv]
    omega
  · have hdiv : (((((hexVal c1 * 16 + hexVal c1) * 16 + hexVal c2) * 16 +
        hexVal c2) * 16 + hexVal c3) * 16 + hexVal c3) / 256 =
        4352 * hexVal c1 + 17 * hexVal c2 := by omega
    rw [hdiv]
    omega
  · omega

theorem hexParse_hash3 (c1 c2 c3 : Char)
    (m1 : c1 ∈ hexDigits) (m2 : c2 ∈ hexDigits) (m3 : c3 ∈ hexDigits) :
    hexParse (String.mk ['#', c1, c2, c3]) =
      hexParse (String.mk [c1, c2, c3]) := by
  obtain ⟨hh1, hw1, hn1, -, hb1, -⟩ := hexDigit_props c1 m1
  obtain ⟨hh2, hw2, hn2, -, hb2, -⟩ := hexDigit_props c2 m2
  obtain ⟨hh3, hw3, hn3, -, hb3, -⟩ := hexDigit_props c3 m3
  rw [hexParse_three c1 c2 c3 m1 m2 m3]
  unfold hexParse stripChars
  simp only [String.data, List.dropWhile_cons, hw3,
    show ('#').isWhitespace = false from rfl, Bool.false_eq_true,
    if_false, List.reverse_cons, List.reverse_nil, List.nil_append,
    List.cons_append, List.dropWhile_nil, List.reverse_reverse]
  simp only [List.take, List.drop, if_true, List.length_cons, List.length_nil]
  simp only [List.all_cons, List.all_nil, hh1, hh2, hh3,
    Bool.and_self, Bool.true_and]
  norm_num
  simp only [List.flatMap_cons, List.flatMap_nil, List.cons_append,
    List.nil_append, List.length_cons, List.length_nil, List.all_cons,
    List.all_nil, hh1, hh2, hh3, Bool.and_self, Bool.true_and,
    List.foldl_cons, List.foldl_nil]
  rw [if_pos (by norm_num)]
  rw [Nat.shiftRight_eq_div_pow, Nat.shiftRight_eq_div_pow, land255, land255,
    land255]
  simp only [Except.ok.injEq, Prod.mk.injEq]
  norm_num
  refine ⟨?_, ?_, ?_⟩
  · have hdiv : (((((hexVal c1 * 16 + hexVal c1) * 16 + hexVal c2) * 16 +
        hexVal c2) * 16 + hexVal c3) * 16 + hexVal c3) / 65536 =
        17 * hexVal c1 := by omega
    rw [hdiv]
    omega
  · have hdiv : (((((hexVal c1 * 16 + hexVal c1) * 16 + hexVal c2) * 16 +
        hexVal c2) * 16 + hexVal c3) * 16 + hexVal c3) / 256 =
        4352 * hexVal c1 + 17 * hexVal c2 := by omega
    rw [hdiv]
    omega
  · omega

theorem fromHexBytes_three (c1 c2 c3 : Char)
    (m1 : c1 ∈ hexDigits) :
    fromHexBytes (String.mk [c1, c2, c3]) = .error .invalidHexFormat := by
  obtain ⟨-, -, hn1, -, -, -⟩ := hexDigit_props c1 m1
  unfold fromHexBytes
  simp only [String.data, List.dropWhile_cons, decide_eq_true_eq]
  rw [if_neg hn1]

theorem fromHexBytes_six (c1 c2 c3 c4 c5 c6 : Char)
    (m1 : c1 ∈ hexDigits) (m2 : c2 ∈ hexDigits) (m3 : c3 ∈ hexDigits)
    (m4 : c4 ∈ hexDigits) (m5 : c5 ∈ hexDigits) (m6 : c6 ∈ hexDigits) :
    fromHexBytes (String.mk [c1, c2, c3, c4, c5, c6]) =
      .ok (16 * hexVal c1 + hexVal c2, 16 * hexVal c3 + hexVal c4,
           16 * hexVal c5 + hexVal c6) := by
  obtain ⟨hh1, -, hn1, -, -, -⟩ := hexDigit_props c1 m1
  obtain ⟨hh2, -, -, -, -, -⟩ := hexDigit_props c2 m2
  obtain ⟨hh3, -, -, -, -, -⟩ := hexDigit_props c3 m3
  obtain ⟨hh4, -, -, -, -, -⟩ := hexDigit_props c4 m4
  obtain ⟨hh5, -, -, -, -, -⟩ := hexDigit_props c5 m5
  obtain ⟨hh6, -, -, -, -, -⟩ := hexDigit_props c6 m6
  unfold fromHexBytes
  simp only [String.data, List.dropWhile_cons, decide_eq_true_eq]
  rw [if_neg hn1]
  simp only [List.all_cons, List.all_nil, hh1, hh2, hh3, hh4, hh5, hh6,
    Bool.and_self, Bool.true_and, if_true]

theorem fromHexBytes_hash (c1 : Char) (rest : List Char)
    (m1 : c1 ∈ hexDigits) :
    fromHexBytes (String.mk ('#' :: c1 :: rest)) =
      fromHexBytes (String.mk (c1 :: rest)) := by
  obtain ⟨-, -, hn1, -, -, -⟩ := hexDigit_props c1 m1
  unfold fromHexBytes
  simp only [String.data, List.dropWhile_cons, decide_eq_true_eq]
  rw [if_pos trivial, if_neg hn1]

theorem hexChar_mem : ∀ n < 16, hexChar n ∈ lowerHexDigits := by decide

theorem toHex_output (r g b : ℕ) :
    (toHexChars r g b).head? = some '#' ∧
    ∀ ch ∈ (toHexChars r g b).tail, ch ∈ lowerHexDigits := by
  refine ⟨rfl, ?_⟩
  intro ch hch
  unfold toHexChars byteHex at hch
  simp only [List.tail_cons, List.cons_append, List.nil_append,
    List.mem_cons, List.not_mem_nil, or_false] at hch
  rcases hch with h | h | h | h | h | h <;> subst h <;>
    exact hexChar_mem _ (by omega)

theorem hexVal_lower : ∀ ch ∈ hexDigits, hexVal (lowerChar ch) = hexVal ch := by
  intro ch hm
  unfold hexVal
  rw [(hexDigit_props ch hm).2.2.2.1]

/-- C6 amended: HexEncoding.parse accepts 3-digit shorthand (equal to the
digit-duplicated 6-digit form) and 6 hex digits, with the # prefix optional
and input case-insensitive; Color.from_hex accepts 6 hex digits with the #
prefix optional and case-insensitive input but rejects 3-digit shorthand;
hex output always has the # prefix and lowercase digits. -/
theorem hex_parsing_amended :
    (∀ c1 c2 c3, c1 ∈ hexDigits → c2 ∈ hexDigits → c3 ∈ hexDigits →
      hexParse (String.mk [c1, c2, c3]) =
          hexParse (String.mk [c1, c1, c2, c2, c3, c3]) ∧
      hexParse (String.mk ['#', c1, c2, c3]) =
          hexParse (String.mk [c1, c2, c3]) ∧
      fromHexBytes (String.mk [c1, c2, c3]) = .error .invalidHexFormat) ∧
    (∀ c1 c2 c3 c4 c5 c6, c1 ∈ hexDigits → c2 ∈ hexDigits → c3 ∈ hexDigits →
        c4 ∈ hexDigits → c5 ∈ hexDigits → c6 ∈ hexDigits →
      hexParse (String.mk ['#', c1, c2, c3, c4, c5, c6]) =
          hexParse (String.mk [c1, c2, c3, c4, c5, c6]) ∧
      fromHexBytes (String.mk ['#', c1, c2, c3, c4, c5, c6]) =
          fromHexBytes (String.mk [c1, c2, c3, c4, c5, c6]) ∧
      hexParse (String.mk [c1, c2, c3, c4, c5, c6]) =
          .ok (16 * hexVal c1 + hexVal c2, 16 * hexVal c3 + hexVal c4,
               16 * hexVal c5 + hexVal c6) ∧
      fromHexBytes (String.mk [c1, c2, c3, c4, c5, c6]) =
          .ok (16 * hexVal c1 + hexVal c2, 16 * hexVal c3 + hexVal c4,
               16 * hexVal c5 + hexVal c6) ∧
      hexParse (String.mk ([c1, c2, c3, c4, c5, c6].map lowerChar)) =
          hexParse (String.mk [c1, c2, c3, c4, c5, c6])) ∧
    (∀ r g b : ℕ, r ≤ 255 → g ≤ 255 → b ≤ 255 →
      (toHexChars r g b).head? = some '#' ∧
      ∀ ch ∈ (toHexChars r g b).tail, ch ∈ lowerHexDigits) := by
  refine ⟨?_, ?_, fun r g b _ _ _ => toHex_output r g b⟩
  · intro c1 c2 c3 m1 m2 m3
    refine ⟨?_, hexParse_hash3 c1 c2 c3 m1 m2 m3,
      fromHexBytes_three c1 c2 c3 m1⟩
    rw [hexParse_three c1 c2 c3 m1 m2 m3,
      hexParse_six c1 c1 c2 c2 c3 c3 m1 m1 m2 m2 m3 m3]
  · intro c1 c2 c3 c4 c5 c6 m1 m2 m3 m4 m5 m6
    have ml1 := (hexDigit_props c1 m1).2.2.2.2.2
    have ml2 := (hexDigit_props c2 m2).2.2.2.2.2
    have ml3 := (hexDigit_props c3 m3).2.2.2.2.2
    have ml4 := (hexDigit_props c4 m4).2.2.2.2.2
    have ml5 := (hexDigit_props c5 m5).2.2.2.2.2
    have ml6 := (hexDigit_props c6 m6).2.2.2.2.2
    refine ⟨hexParse_hash6 c1 c2 c3 c4 c5 c6 m1 m2 m3 m4 m5 m6,
      fromHexBytes_hash c1 [c2, c3, c4, c5, c6] m1,
      hexParse_six c1 c2 c3 c4 c5 c6 m1 m2 m3 m4 m5 m6,
      fromHexBytes_six c1 c2 c3 c4 c5 c6 m1 m2 m3 m4 m5 m6, ?_⟩
    simp only [List.map_cons, List.map_nil]
    rw [hexParse_six _ _ _ _ _ _ ml1 ml2 ml3 ml4 ml5 ml6,
      hexParse_six c1 c2 c3 c4 c5 c6 m1 m2 m3 m4 m5 m6,
      hexVal_lower c1 m1, hexVal_lower c2 m2, hexVal_lower c3 m3,
      hexVal_lower c4 m4, hexVal_lower c5 m5, hexVal_lower c6 m6]

/-- C6 counterexample: the 3-digit shorthand f00 is rejected by the parsing
of Color.from_hex (its regex requires exactly six hex digits), while
HexEncoding.parse expands it to ff0000; so shorthand support does not hold
for every hex parsing entry point. -/
theorem from_hex_rejects_shorthand_counterexample :
    fromHexBytes "f00" = .error .invalidHexFormat ∧
    hexParse "f00" = .ok (255, 0, 0) := by
  refine ⟨by decide, by decide⟩

/-- Witness for C6: concrete instances of the amended clauses. -/
theorem hex_parsing_amended_witness :
    hexParse (String.mk ['f', '0', '0']) =
        hexParse (String.mk ['f', 'f', '0', '0', '0', '0']) ∧
    fromHexBytes (String.mk ['a', 'b', 'c']) = .error .invalidHexFormat ∧
    (toHexChars 255 188 188).head? = some '#' :=
  ⟨(hex_parsing_amended.1 'f' '0' '0' (by decide) (by decide) (by decide)).1,
   (hex_parsing_amended.1 'a' 'b' 'c' (by decide) (by decide) (by decide)).2.2,
   (hex_parsing_amended.2.2 255 188 188 (by decide) (by decide) (by decide)).1⟩

/-- C7 counterexample: the prefix dispatch of auto_parse is case-sensitive,
so the uppercase RGB(255, 0, 0) is not recognized while the lowercase form
parses, contradicting the claim that the prefixes match case-insensitively. -/
theorem auto_parse_case_sensitive_counterexample :
    autoParse "RGB(255, 0, 0)" = .error .unrecognizedFormat ∧
    autoParse "rgb(255, 0, 0)" = .ok (.rgbE 255 0 0) ∧
    autoParse "RGB(255, 0, 0)" ≠ autoParse "rgb(255, 0, 0)" :=
  ⟨by decide, by decide, by decide⟩

/-- C7 amended: auto_parse tries formats in the fixed priority order hex,
rgb(, hsl(, hsv(, wcag-hcl(, CSS named color, first match winning; hex
digits and CSS color names match case-insensitively, but the function-style
prefixes must be lowercase (an uppercase prefix falls through to the
unrecognized-format error); when no pattern and no name matches it fails
with the unrecognized-format error. -/
theorem auto_parse_amended :
    autoParse "rgb(255, 0, 0)" = .ok (.rgbE 255 0 0) ∧
    autoParse "hsl(0, 100%, 50%)" =
      .ok (.hslE (mkRat 0 1) (mkRat 100 1) (mkRat 50 1)) ∧
    autoParse "hsv(0, 100%, 100%)" =
      .ok (.hsvE (mkRat 0 1) (mkRat 100 1) (mkRat 100 1)) ∧
    autoParse "wcag-hcl(0, 100%, 0.213)" =
      .ok (.wcagE (mkRat 0 1) (mkRat 100 1) (mkRat 213 1000)) ∧
    autoParse "#FF0000" = autoParse "#ff0000" ∧
    autoParse "RED" = autoParse "red" ∧
    autoParse "red" = .ok (.hexE 255 0 0) ∧
    autoParse "abcd" = .error .invalidHexFormat ∧
    autoParse "HSL(0, 100%, 50%)" = .error .unrecognizedFormat ∧
    (∀ s : String,
      ¬((stripChars s.data).take 1 = ['#'] ∨
        (3 ≤ (stripChars s.data).length ∧ (stripChars s.data).length ≤ 6 ∧
          (stripChars s.data).all isHexDigitChar = true)) →
      (stripChars s.data).take 4 ≠ "rgb(".data →
      (stripChars s.data).take 4 ≠ "hsl(".data →
      (stripChars s.data).take 4 ≠ "hsv(".data →
      (stripChars s.data).take 9 ≠ "wcag-hcl(".data →
      cssNamedColors.lookup (String.mk ((stripChars s.data).map lowerChar)) =
        none →
      autoParse s = .error .unrecognizedFormat) := by
  refine ⟨by decide, by decide, by decide, by decide, by decide, by decide,
    by decide, by decide, by decide, ?_⟩
  intro s h1 h2 h3 h4 h5 h6
  unfold autoParse
  dsimp only
  rw [if_neg h1, if_neg h2, if_neg h3, if_neg h4, if_neg h5, h6]

/-- Witness for C7: the failure clause at a concrete unrecognized input. -/
theorem auto_parse_amended_witness :
    autoParse "zzz" = .error .unrecognizedFormat :=
  auto_parse_amended.2.2.2.2.2.2.2.2.2 "zzz" (by decide) (by decide)
    (by decide) (by decide) (by decide) (by decide)

end BukzorColor
